import Mathlib

/-!
Verification development for the `imu_vn_100` ROS driver
(`src/imu_vn_100.cpp`).  The definitions below are a shallow embedding of
the driver's core logic: rate normalization (`FixImuRate`,
`SyncInfo::FixSyncRate`), the sync-pulse state machine
(`SyncInfo::Update`), binary-packet field extraction and the timestamp
logic of `PublishData`, and the validation guards of
`asciiOrBinaryAsyncMessageReceived`.

Conventions:
  * C++ `int` is modelled as `Int`; every division and modulus performed by
    the embedded code happens on positive operands, where Lean's `Int`
    division agrees with C++ truncating division.
  * `uint64_t` / `unsigned` values are modelled as `Nat` reduced mod `2^64`
    (resp. `2^32`) where overflow can occur.
  * `ros::Time` values are modelled as an integer count of nanoseconds.
  * IEEE `float` fields are never used arithmetically by the driver's
    decode path: they are only moved from the wire into messages.  A float
    is therefore modelled by its 32-bit pattern (a `Nat < 2^32`).
-/

namespace ImuVn100

/-- `ImuVn100::kBaseImuRate` — the device's fixed base sampling rate. -/
def kBaseImuRate : Int := 800

/-- Modelled from the spec: the repository header (not under `src/`)
defines `kDefaultImuRate`, the documented default substituted when a
non-positive IMU rate is requested.  No claim depends on its numeric
value; the upstream header uses 100. -/
def kDefaultImuRate : Int := 100

/-- `ImuVn100::FixImuRate` (`imu_vn_100.cpp:110-122`): substitute the
default for a non-positive rate, then, when the requested rate does not
evenly divide the base rate, replace it by
`kBaseImuRate / (kBaseImuRate / rate)` (truncating division). -/
def FixImuRate (imu_rate : Int) : Int :=
  let r := if imu_rate ≤ 0 then kDefaultImuRate else imu_rate
  if kBaseImuRate % r ≠ 0 then kBaseImuRate / (kBaseImuRate / r) else r

/-- The mutable fields of `ImuVn100::SyncInfo` (the mutex and the
display-only `rate_double` copy are omitted; `time` is in nanoseconds). -/
structure SyncInfo where
  rate : Int
  skip_count : Int
  pulse_width_us : Int
  count : Nat
  time : Int
  deriving DecidableEq, Repr

/-- `SyncInfo::SyncEnabled` (`imu_vn_100.cpp:78`). -/
def SyncInfo.SyncEnabled (s : SyncInfo) : Bool := s.rate > 0

/-- `SyncInfo::Update` (`imu_vn_100.cpp:66-76`): no-op when sync is
disabled; otherwise set `(count, time)` only when the counter changed. -/
def SyncInfo.Update (s : SyncInfo) (sync_count : Nat) (sync_time : Int) :
    SyncInfo :=
  if s.rate ≤ 0 then s
  else if s.count ≠ sync_count then
    { s with count := sync_count, time := sync_time }
  else s

/-- `SyncInfo::FixSyncRate` (`imu_vn_100.cpp:80-100`).  When sync is
enabled: normalize `rate` exactly as `FixImuRate` does, set
`skip_count = floor(kBaseImuRate / rate + 0.5) - 1`, and clamp
`pulse_width_us` to 1000 when it exceeds 10000.  The source computes the
skip count with `double` arithmetic; for every `int` rate the result
equals the exact rational floor `(2*kBaseImuRate + rate) / (2*rate) - 1`
used here (the quotient `800/rate` is far closer to the nearest `double`
than to any half-integer boundary). -/
def SyncInfo.FixSyncRate (s : SyncInfo) : SyncInfo :=
  if s.SyncEnabled then
    let r := if kBaseImuRate % s.rate ≠ 0 then
        kBaseImuRate / (kBaseImuRate / s.rate)
      else s.rate
    { s with
      rate := r
      skip_count := (2 * kBaseImuRate + r) / (2 * r) - 1
      pulse_width_us :=
        if s.pulse_width_us > 10000 then 1000 else s.pulse_width_us }
  else s

/-- The ASCII-mode pressure/temperature fix-up of
`ImuVn100::LoadParameters` (`imu_vn_100.cpp:139-142`): when binary output
is off and either flag is set, both are forced off.  Returns the final
`(enable_pres, enable_temp)` pair. -/
def fixAsciiOutputs (binary_output enable_pres enable_temp : Bool) :
    Bool × Bool :=
  if !binary_output && (enable_pres || enable_temp) then (false, false)
  else (enable_pres, enable_temp)

/-! ### Binary packet field extraction

The vendor `Packet::extract*` functions consume the payload front to back
with no self-describing framing: `extractUint64` reads 8 bytes,
`extractUint32`/`extractFloat` read 4, `extractVec3f`/`extractVec4f` read
3 resp. 4 floats, all little-endian.  A buffer is a list of bytes; a
multi-byte value is its little-endian `Nat`; a float is its 32-bit
pattern. -/

/-- Little-endian value of a byte list. -/
def bytesToNatLE (bs : List Nat) : Nat :=
  bs.foldr (fun b acc => b % 256 + 256 * acc) 0

/-- Little-endian encoding of `v` on `n` bytes. -/
def natToBytesLE : Nat → Nat → List Nat
  | 0, _ => []
  | n + 1, v => v % 256 :: natToBytesLE n (v / 256)

/-- Consume `n` bytes from the front of the buffer, returning their
little-endian value and the rest; fails when fewer remain. -/
def extractBytes (n : Nat) (buf : List Nat) : Option (Nat × List Nat) :=
  if n ≤ buf.length then some (bytesToNatLE (buf.take n), buf.drop n)
  else none

/-- `Packet::extractUint64`. -/
def extractUint64 (buf : List Nat) : Option (Nat × List Nat) :=
  extractBytes 8 buf

/-- `Packet::extractUint32`. -/
def extractUint32 (buf : List Nat) : Option (Nat × List Nat) :=
  extractBytes 4 buf

/-- `Packet::extractFloat` (returns the 32-bit float pattern). -/
def extractFloat (buf : List Nat) : Option (Nat × List Nat) :=
  extractBytes 4 buf

/-- A `vn::math::vec3f`, as three 32-bit float patterns. -/
structure Vec3 where
  x : Nat
  y : Nat
  z : Nat
  deriving DecidableEq, Repr

/-- A `vn::math::vec4f`, as four 32-bit float patterns. -/
structure Vec4 where
  x : Nat
  y : Nat
  z : Nat
  w : Nat
  deriving DecidableEq, Repr

/-- `Packet::extractVec3f`: three consecutive floats. -/
def extractVec3f (buf : List Nat) : Option (Vec3 × List Nat) :=
  match extractFloat buf with
  | none => none
  | some (x, b1) =>
    match extractFloat b1 with
    | none => none
    | some (y, b2) =>
      match extractFloat b2 with
      | none => none
      | some (z, b3) => some (⟨x, y, z⟩, b3)

/-- `Packet::extractVec4f`: four consecutive floats. -/
def extractVec4f (buf : List Nat) : Option (Vec4 × List Nat) :=
  match extractFloat buf with
  | none => none
  | some (x, b1) =>
    match extractFloat b1 with
    | none => none
    | some (y, b2) =>
      match extractFloat b2 with
      | none => none
      | some (z, b3) =>
        match extractFloat b3 with
        | none => none
        | some (w, b4) => some (⟨x, y, z, w⟩, b4)

/-- The fields `ImuVn100::PublishData` pulls out of a binary record, in
declaration order. -/
structure BinaryFields where
  timeStartup : Nat
  quaternion : Vec4
  magnetometer : Vec3
  temperature : Nat
  pressure : Nat
  syncInCnt : Nat
  accel : Vec3
  angularRate : Vec3
  deriving DecidableEq, Repr

/-- The exact extraction sequence `ImuVn100::PublishData` performs on a
binary packet (`imu_vn_100.cpp:327,341,342,357,365,373,374,375`):
`extractUint64` (TIMESTARTUP), `extractVec4f` (QUATERNION),
`extractVec3f` (magnetometer), `extractFloat` (temperature),
`extractFloat` (pressure), `extractUint32` (SYNCINCNT),
`extractVec3f` (ACCEL), `extractVec3f` (ANGULARRATE). -/
def extractBinaryFields (buf : List Nat) :
    Option (BinaryFields × List Nat) :=
  match extractUint64 buf with
  | none => none
  | some (t, b1) =>
    match extractVec4f b1 with
    | none => none
    | some (q, b2) =>
      match extractVec3f b2 with
      | none => none
      | some (m, b3) =>
        match extractFloat b3 with
        | none => none
        | some (te, b4) =>
          match extractFloat b4 with
          | none => none
          | some (pr, b5) =>
            match extractUint32 b5 with
            | none => none
            | some (sc, b6) =>
              match extractVec3f b6 with
              | none => none
              | some (ac, b7) =>
                match extractVec3f b7 with
                | none => none
                | some (ar, b8) =>
                  some (⟨t, q, m, te, pr, sc, ac, ar⟩, b8)

/-- Wire image of a `vec3f`. -/
def encodeVec3 (v : Vec3) : List Nat :=
  natToBytesLE 4 v.x ++ natToBytesLE 4 v.y ++ natToBytesLE 4 v.z

/-- Wire image of a `vec4f`. -/
def encodeVec4 (v : Vec4) : List Nat :=
  natToBytesLE 4 v.x ++ natToBytesLE 4 v.y ++ natToBytesLE 4 v.z ++
  natToBytesLE 4 v.w

/-- The wire image of a binary record carrying the configured field
groups, laid out in the protocol-fixed order (the inverse of
`extractBinaryFields`; used to state the round-trip law). -/
def encodeBinaryRecord (f : BinaryFields) : List Nat :=
  natToBytesLE 8 f.timeStartup ++ encodeVec4 f.quaternion ++
  encodeVec3 f.magnetometer ++ natToBytesLE 4 f.temperature ++
  natToBytesLE 4 f.pressure ++ natToBytesLE 4 f.syncInCnt ++
  encodeVec3 f.accel ++ encodeVec3 f.angularRate

/-- Width bounds for the fields of a binary record. -/
def BinaryFields.Wf (f : BinaryFields) : Prop :=
  f.timeStartup < 2 ^ 64 ∧
  f.quaternion.x < 2 ^ 32 ∧ f.quaternion.y < 2 ^ 32 ∧
  f.quaternion.z < 2 ^ 32 ∧ f.quaternion.w < 2 ^ 32 ∧
  f.magnetometer.x < 2 ^ 32 ∧ f.magnetometer.y < 2 ^ 32 ∧
  f.magnetometer.z < 2 ^ 32 ∧
  f.temperature < 2 ^ 32 ∧ f.pressure < 2 ^ 32 ∧ f.syncInCnt < 2 ^ 32 ∧
  f.accel.x < 2 ^ 32 ∧ f.accel.y < 2 ^ 32 ∧ f.accel.z < 2 ^ 32 ∧
  f.angularRate.x < 2 ^ 32 ∧ f.angularRate.y < 2 ^ 32 ∧
  f.angularRate.z < 2 ^ 32

instance (f : BinaryFields) : Decidable f.Wf := by
  unfold BinaryFields.Wf; infer_instance

/-! ### Timestamp assignment (`ImuVn100::PublishData`, lines 327-340) -/

/-- The driver's timestamp state: `first_publish_`,
`ros_prev_timestamp_` (nanoseconds) and `vn100_prev_timestamp_`
(a `uint64_t` tick count). -/
structure TimeState where
  first_publish : Bool
  ros_prev : Int
  vn_prev : Nat
  deriving DecidableEq, Repr

/-- Unsigned 64-bit subtraction `a - b`, i.e. `(a - b) mod 2^64`, as the
C++ expression `time_since_startup - vn100_prev_timestamp_` computes it
on `uint64_t`. -/
def wrapSub64 (a b : Nat) : Nat :=
  (2 ^ 64 + a % 2 ^ 64 - b % 2 ^ 64) % 2 ^ 64

/-- Reinterpretation of a `uint64_t` bit pattern as `int64_t`:
`ros::Duration::fromNSec` takes an `int64_t`, so the unsigned difference
is converted two's-complement. -/
def int64OfUInt64 (d : Nat) : Int :=
  if d % 2 ^ 64 < 2 ^ 63 then (d % 2 ^ 64 : Nat)
  else (d % 2 ^ 64 : Nat) - 2 ^ 64

/-- One step of the timestamp logic of `ImuVn100::PublishData`
(`imu_vn_100.cpp:327-340`): on the first publish the stamp is the host
clock `now`; afterwards it is the previous stamp plus the device-tick
delta (unsigned 64-bit subtraction, handed to
`ros::Duration::fromNSec(int64_t)`).  Both `ros_prev_timestamp_` and
`vn100_prev_timestamp_` are then advanced.  Returns the assigned stamp
and the new state. -/
def timeStep (ts : TimeState) (now : Int) (ticks : Nat) :
    Int × TimeState :=
  let stamp :=
    if ts.first_publish then now
    else ts.ros_prev + int64OfUInt64 (wrapSub64 ticks ts.vn_prev)
  (stamp, ⟨false, stamp, ticks⟩)

/-! ### `PublishData` and the async-message handler -/

/-- The values `ImuVn100::PublishData` ends up publishing (the stamp in
nanoseconds plus every field it moved out of the packet).  `temperature`
and `pressure` reach a publisher only when the corresponding enable flag
is set; they are recorded here as the values the function extracted. -/
structure PublishedRecord where
  stamp : Int
  quaternion : Vec4
  magnetometer : Vec3
  temperature : Nat
  pressure : Nat
  syncInCnt : Nat
  accel : Vec3
  angularRate : Vec3
  deriving DecidableEq, Repr

/-- The binary branch of `ImuVn100::PublishData`
(`imu_vn_100.cpp:313-389` with `binary_output_ = true`): extract the
fields in protocol order, assign the stamp from the extracted
`timeStartup` ticks, advance the timestamp state, and run
`SyncInfo::Update` with the extracted sync counter and the assigned
stamp.  `none` models the vendor library's failure when the payload is
shorter than the configured groups imply. -/
def publishDataBinary (ts : TimeState) (sync : SyncInfo) (now : Int)
    (payload : List Nat) :
    Option (PublishedRecord × TimeState × SyncInfo) :=
  match extractBinaryFields payload with
  | none => none
  | some (f, _) =>
    let st := timeStep ts now f.timeStartup
    let sync' := sync.Update f.syncInCnt st.1
    some (⟨st.1, f.quaternion, f.magnetometer, f.temperature, f.pressure,
           f.syncInCnt, f.accel, f.angularRate⟩, st.2, sync')

/-- What `Packet::parseVNQMR` hands back for an ASCII VNQMR sentence:
the quaternion, magnetometer, acceleration and angular-rate tokens. -/
structure VnqmrParsed where
  quaternion : Vec4
  magnetometer : Vec3
  accel : Vec3
  angularRate : Vec3
  deriving DecidableEq, Repr

/-- The ASCII branch of `ImuVn100::PublishData`
(`imu_vn_100.cpp:313-389` with `binary_output_ = false`).  Faithful to
the source: the stamp-assignment block is inside `if (binary_output_)`,
so the message keeps the default-constructed stamp (0) and the timestamp
state is untouched; `parseVNQMR` (line 345) fills the four sentence
fields, but the unconditional tail (lines 357-375) still runs
`extractFloat`, `extractFloat`, `extractUint32`, `extractVec3f`,
`extractVec3f` against the packet buffer, overwriting `linear_accel` and
`angular_rate` with the re-extracted values and feeding the extracted
counter to `SyncInfo::Update`. -/
def publishDataAscii (ts : TimeState) (sync : SyncInfo)
    (parsed : VnqmrParsed) (payload : List Nat) :
    Option (PublishedRecord × TimeState × SyncInfo) :=
  match extractFloat payload with
  | none => none
  | some (te, b1) =>
    match extractFloat b1 with
    | none => none
    | some (pr, b2) =>
      match extractUint32 b2 with
      | none => none
      | some (sc, b3) =>
        match extractVec3f b3 with
        | none => none
        | some (ac, b4) =>
          match extractVec3f b4 with
          | none => none
          | some (ar, _) =>
            let sync' := sync.Update sc 0
            some (⟨0, parsed.quaternion, parsed.magnetometer, te, pr,
                   sc, ac, ar⟩, ts, sync')

/-- The six group fields a binary packet declares in its header. -/
structure PacketGroups where
  common : Nat
  timeg : Nat
  imu : Nat
  gps : Nat
  attitude : Nat
  ins : Nat
  deriving DecidableEq, Repr

/-- The group configuration the driver programs and expects
(`imu_vn_100.cpp:270-273` and `413-416`):
`COMMONGROUP_TIMESTARTUP | COMMONGROUP_QUATERNION | COMMONGROUP_MAGPRES |
COMMONGROUP_SYNCINCNT` (vendor enum values `0x0001 | 0x0010 | 0x0400 |
0x2000`), `TIMEGROUP_NONE`, `IMUGROUP_ACCEL | IMUGROUP_ANGULARRATE`
(`0x0200 | 0x0400`), and no GPS/attitude/INS groups. -/
def expectedGroups : PacketGroups :=
  ⟨0x2411, 0, 0x0600, 0, 0, 0⟩

/-- `vn::protocol::uart::VNQMR` (vendor enum value). -/
def vnqmrCode : Nat := 8

/-- A received packet: its type, declared groups, checksum/CRC validity
(`Packet::isValid`), the raw payload, and the fields `parseVNQMR` would
tokenize for an ASCII sentence. -/
structure Packet where
  isAsciiType : Bool
  asciiAsyncType : Nat
  groups : PacketGroups
  valid : Bool
  payload : List Nat
  vnqmr : VnqmrParsed
  deriving DecidableEq, Repr

/-- `asciiOrBinaryAsyncMessageReceived` (`imu_vn_100.cpp:406-440`): in
binary mode, reject a packet whose declared groups differ from the
configured groups (`isCompatible`) before anything is extracted; in
ASCII mode, reject a packet that is not ASCII or not a VNQMR sentence;
in both modes reject a packet whose checksum/CRC fails (`isValid`);
otherwise run `PublishData`.  Rejection leaves the timestamp and sync
state unchanged and produces no record. -/
def asciiOrBinaryAsyncMessageReceived (binary_output : Bool)
    (ts : TimeState) (sync : SyncInfo) (now : Int) (p : Packet) :
    TimeState × SyncInfo × Option PublishedRecord :=
  if binary_output then
    if p.groups ≠ expectedGroups then (ts, sync, none)
    else if ¬ p.valid then (ts, sync, none)
    else
      match publishDataBinary ts sync now p.payload with
      | none => (ts, sync, none)
      | some (r, ts', sync') => (ts', sync', some r)
  else
    if ¬ p.isAsciiType then (ts, sync, none)
    else if p.asciiAsyncType ≠ vnqmrCode then (ts, sync, none)
    else if ¬ p.valid then (ts, sync, none)
    else
      match publishDataAscii ts sync p.vnqmr p.payload with
      | none => (ts, sync, none)
      | some (r, ts', sync') => (ts', sync', some r)

/-! ### Claim theorems: rate normalization and sync state -/

/-- C1 (counterexample): the claim "after normalization
`base_rate % actual_rate == 0` holds for every positive requested rate"
fails on the code: requesting 250 makes both `FixImuRate` and
`FixSyncRate` produce `800 / (800 / 250) = 266`, and `800 % 266 = 2`. -/
theorem fixRate_divisibility_cex :
    FixImuRate 250 = 266 ∧ kBaseImuRate % FixImuRate 250 ≠ 0 ∧
    (SyncInfo.FixSyncRate ⟨250, 0, 1000, 0, 0⟩).rate = 266 ∧
    kBaseImuRate % (SyncInfo.FixSyncRate ⟨250, 0, 1000, 0, 0⟩).rate ≠ 0 := by
  decide

/-- C1 (amended): for a positive requested rate `r` that does not evenly
divide the base rate, the normalized rate `800 / (800 / r)` evenly
divides the base rate provided the truncated quotient `800 / r` itself
divides 800 (without that proviso the invariant fails, e.g. at 250). -/
theorem fixRate_divides_of_quotient_dvd (r : Int) (s : SyncInfo)
    (hr : 0 < r) (hnd : kBaseImuRate % r ≠ 0)
    (hq : (kBaseImuRate / r) ∣ kBaseImuRate) (hs : s.rate = r) :
    kBaseImuRate % FixImuRate r = 0 ∧
    kBaseImuRate % (s.FixSyncRate).rate = 0 := by
  obtain ⟨m, hm⟩ := hq
  have hqne : kBaseImuRate / r ≠ 0 := by
    intro h0
    rw [h0, zero_mul] at hm
    exact absurd hm (by decide)
  have hval : kBaseImuRate / (kBaseImuRate / r) = m := by
    nth_rewrite 1 [hm]
    exact Int.mul_ediv_cancel_left m hqne
  have hmdvd : m ∣ kBaseImuRate :=
    ⟨kBaseImuRate / r, by nth_rewrite 1 [hm]; ring⟩
  have hmod : kBaseImuRate % m = 0 := Int.emod_eq_zero_of_dvd hmdvd
  constructor
  · rw [show FixImuRate r = kBaseImuRate / (kBaseImuRate / r) by
      simp [FixImuRate, not_le.mpr hr, hnd], hval]
    exact hmod
  · rw [show (s.FixSyncRate).rate = kBaseImuRate / (kBaseImuRate / r) by
      simp [SyncInfo.FixSyncRate, SyncInfo.SyncEnabled, hs, hr, hnd], hval]
    exact hmod

/-- C1 (witness for the amended claim), at `r = 300`:
`800 / 300 = 2` divides 800 and the normalized rate 400 divides 800. -/
theorem fixRate_divides_witness :
    kBaseImuRate % FixImuRate 300 = 0 ∧
    kBaseImuRate % (SyncInfo.FixSyncRate ⟨300, 0, 1000, 0, 0⟩).rate = 0 :=
  fixRate_divides_of_quotient_dvd 300 ⟨300, 0, 1000, 0, 0⟩ (by decide)
    (by decide) (by decide) rfl

/-- C5: for every positive requested rate `r` with
`kBaseImuRate % r ≠ 0`, both normalization paths compute the new rate
exactly as `kBaseImuRate / (kBaseImuRate / r)` with truncating integer
division, returning normally with the adjusted rate (the adjustment is
only logged, never fatal). -/
theorem rate_adjust_formula (r : Int) (s : SyncInfo)
    (hr : 0 < r) (hnd : kBaseImuRate % r ≠ 0) (hs : s.rate = r) :
    FixImuRate r = kBaseImuRate / (kBaseImuRate / r) ∧
    (s.FixSyncRate).rate = kBaseImuRate / (kBaseImuRate / r) := by
  constructor
  · simp [FixImuRate, not_le.mpr hr, hnd]
  · simp [SyncInfo.FixSyncRate, SyncInfo.SyncEnabled, hs, hr, hnd]

/-- C5 (witness), at `r = 300`: `800 / (800 / 300) = 400`. -/
theorem rate_adjust_formula_witness :
    FixImuRate 300 = kBaseImuRate / (kBaseImuRate / 300) ∧
    (SyncInfo.FixSyncRate ⟨300, 0, 1000, 0, 0⟩).rate =
      kBaseImuRate / (kBaseImuRate / 300) :=
  rate_adjust_formula 300 ⟨300, 0, 1000, 0, 0⟩ (by decide) (by decide) rfl

/-- C6: a positive requested rate that evenly divides the base rate is
left unchanged by both normalization paths, and `FixSyncRate` sets
`skip_count = kBaseImuRate / rate - 1` (the round-half-up of
`800 / rate`, minus 1); in particular `FixImuRate 200 = 200`. -/
theorem rate_divisor_fixpoint (r : Int) (s : SyncInfo)
    (hr : 0 < r) (hdvd : r ∣ kBaseImuRate) (hs : s.rate = r) :
    FixImuRate r = r ∧ (s.FixSyncRate).rate = r ∧
    (s.FixSyncRate).skip_count = kBaseImuRate / r - 1 := by
  have hmod : kBaseImuRate % r = 0 := Int.emod_eq_zero_of_dvd hdvd
  obtain ⟨k, hk⟩ := hdvd
  have hrne : r ≠ 0 := ne_of_gt hr
  have hkval : kBaseImuRate / r = k := by
    rw [hk]
    exact Int.mul_ediv_cancel_left k hrne
  have hskip : (2 * kBaseImuRate + r) / (2 * r) = k := by
    have h1 : 2 * kBaseImuRate + r = r * (2 * k + 1) := by rw [hk]; ring
    have h2 : 2 * r = r * 2 := by ring
    rw [h1, h2, Int.mul_ediv_mul_of_pos _ _ hr,
      show (2 * k + 1 : Int) = 1 + k * 2 by ring,
      Int.add_mul_ediv_right 1 k (by norm_num : (2 : Int) ≠ 0)]
    norm_num
  refine ⟨by simp [FixImuRate, not_le.mpr hr, hmod], ?_, ?_⟩
  · simp [SyncInfo.FixSyncRate, SyncInfo.SyncEnabled, hs, hr, hmod]
  · simp only [SyncInfo.FixSyncRate, SyncInfo.SyncEnabled, hs,
      decide_eq_true_eq, hr, if_true, hmod, ne_eq, not_true_eq_false,
      if_false]
    rw [hskip, hkval]

/-- C6 (witness), at `r = 200`: rate kept, `skip_count = 3`. -/
theorem rate_divisor_fixpoint_witness :
    FixImuRate 200 = 200 ∧
    (SyncInfo.FixSyncRate ⟨200, 0, 1000, 0, 0⟩).rate = 200 ∧
    (SyncInfo.FixSyncRate ⟨200, 0, 1000, 0, 0⟩).skip_count =
      kBaseImuRate / 200 - 1 :=
  rate_divisor_fixpoint 200 ⟨200, 0, 1000, 0, 0⟩ (by decide) (by decide) rfl

/-- C8: `SyncInfo::Update` is a no-op when sync is disabled
(`rate <= 0`); with sync enabled it sets `count` and `time` together
exactly when the new counter differs from the stored one, so a repeated
counter leaves the state unchanged (the second of two identical calls
never changes anything) while a fresh counter updates both fields. -/
theorem sync_update_contract :
    (∀ (s : SyncInfo) (c : Nat) (t : Int), s.rate ≤ 0 →
      s.Update c t = s) ∧
    (∀ (s : SyncInfo) (c : Nat) (t : Int), 0 < s.rate → c ≠ s.count →
      (s.Update c t).count = c ∧ (s.Update c t).time = t) ∧
    (∀ (s : SyncInfo) (c : Nat) (t : Int), 0 < s.rate → c = s.count →
      s.Update c t = s) ∧
    (∀ (s : SyncInfo) (c : Nat) (t₁ t₂ : Int),
      (s.Update c t₁).Update c t₂ = s.Update c t₁) := by
  refine ⟨?_, ?_, ?_, ?_⟩
  · intro s c t h
    simp [SyncInfo.Update, h]
  · intro s c t hr hc
    simp [SyncInfo.Update, not_le.mpr hr, Ne.symm hc]
  · intro s c t hr hc
    subst hc
    simp [SyncInfo.Update]
  · intro s c t₁ t₂
    by_cases h : s.rate ≤ 0
    · simp [SyncInfo.Update, h]
    · by_cases hc : s.count ≠ c
      · simp [SyncInfo.Update, h, hc]
      · simp [SyncInfo.Update, h, hc]

/-- C8 (witness): with sync enabled, a fresh counter 6 with time 7
updates both fields. -/
theorem sync_update_contract_witness :
    (SyncInfo.Update ⟨1, 0, 0, 5, 100⟩ 6 7).count = 6 ∧
    (SyncInfo.Update ⟨1, 0, 0, 5, 100⟩ 6 7).time = 7 :=
  sync_update_contract.2.1 ⟨1, 0, 0, 5, 100⟩ 6 7 (by decide) (by decide)

/-- C9: with sync configured, `FixSyncRate` clamps `pulse_width_us` to
exactly 1000 whenever the input exceeds 10000 and leaves it unchanged
otherwise, independently of the rate computation; an input of 15000
yields 1000 and an input of 500 stays 500. -/
theorem pulse_width_clamp :
    (∀ s : SyncInfo, 0 < s.rate →
      (s.FixSyncRate).pulse_width_us =
        if s.pulse_width_us > 10000 then 1000 else s.pulse_width_us) ∧
    (SyncInfo.FixSyncRate ⟨200, 0, 15000, 0, 0⟩).pulse_width_us = 1000 ∧
    (SyncInfo.FixSyncRate ⟨200, 0, 500, 0, 0⟩).pulse_width_us = 500 := by
  refine ⟨?_, by decide, by decide⟩
  intro s h
  simp [SyncInfo.FixSyncRate, SyncInfo.SyncEnabled, h]

/-- C9 (witness): the clamp at a rate (7) that the rate computation
itself would change, with input 20000. -/
theorem pulse_width_clamp_witness :
    (SyncInfo.FixSyncRate ⟨7, 0, 20000, 0, 0⟩).pulse_width_us =
      if (20000 : Int) > 10000 then 1000 else 20000 :=
  pulse_width_clamp.1 ⟨7, 0, 20000, 0, 0⟩ (by decide)

/-! ### Claim theorems: timestamp assignment -/

/-- Forward tick delta: when the counter did not regress and the delta
fits in 63 bits, the signed reinterpretation of the wrapped difference
is the plain difference. -/
lemma int64_wrapSub_forward {a b : Nat} (hle : b ≤ a) (ha : a < 2 ^ 64)
    (hd : a - b < 2 ^ 63) :
    int64OfUInt64 (wrapSub64 a b) = ((a - b : Nat) : Int) := by
  unfold wrapSub64 int64OfUInt64
  split_ifs <;> push_cast <;> omega

/-- Regressing tick delta: when the counter went backwards by fewer than
`2^63` ticks, the wrapped difference reinterpreted as `int64_t` is the
negated regression. -/
lemma int64_wrapSub_backward {a b : Nat} (hlt : a < b) (hb : b < 2 ^ 64)
    (hd : b - a < 2 ^ 63) :
    int64OfUInt64 (wrapSub64 a b) = -((b - a : Nat) : Int) := by
  unfold wrapSub64 int64OfUInt64
  split_ifs <;> push_cast <;> omega

/-- C2: the seed-then-integrate rule of `PublishData`.  (i) A record
arriving while `first_publish_` is set is stamped with the host clock
`now`, and `(now, ticks)` becomes the anchor.  (ii) A later record is
stamped with the anchor's host time plus the tick delta in nanoseconds,
and the anchor advances to the new `(stamp, ticks)` pair (delta within
the device counter's forward range).  (iii) In particular, a first call
with ticks 1000 at host time `t0` yields `t0`, and a second call with
ticks 1800 yields `t0 + 800` ns. -/
theorem timestamp_seed_then_integrate :
    (∀ (ts : TimeState) (now : Int) (ticks : Nat),
      ts.first_publish = true →
      timeStep ts now ticks = (now, ⟨false, now, ticks⟩)) ∧
    (∀ (ts : TimeState) (now : Int) (ticks : Nat),
      ts.first_publish = false → ts.vn_prev ≤ ticks → ticks < 2 ^ 64 →
      ticks - ts.vn_prev < 2 ^ 63 →
      timeStep ts now ticks =
        (ts.ros_prev + ((ticks - ts.vn_prev : Nat) : Int),
         ⟨false, ts.ros_prev + ((ticks - ts.vn_prev : Nat) : Int),
          ticks⟩)) ∧
    (∀ (ts : TimeState) (t0 now2 : Int), ts.first_publish = true →
      (timeStep ts t0 1000).1 = t0 ∧
      (timeStep (timeStep ts t0 1000).2 now2 1800).1 = t0 + 800) := by
  refine ⟨?_, ?_, ?_⟩
  · intro ts now ticks h
    simp [timeStep, h]
  · intro ts now ticks h hle hlt hd
    simp [timeStep, h, int64_wrapSub_forward hle hlt hd]
  · intro ts t0 now2 h
    have h1 : timeStep ts t0 1000 = (t0, ⟨false, t0, 1000⟩) := by
      simp [timeStep, h]
    refine ⟨by rw [h1], ?_⟩
    rw [h1]
    have h800 : int64OfUInt64 (wrapSub64 1800 1000) = 800 := by decide
    simp [timeStep, h800]

/-- C2 (witness): the two-record scenario at `t0 = 5`, second host
sample at 77 (unused by the integration rule). -/
theorem timestamp_seed_then_integrate_witness :
    (timeStep ⟨true, 0, 0⟩ 5 1000).1 = 5 ∧
    (timeStep (timeStep ⟨true, 0, 0⟩ 5 1000).2 77 1800).1 = 5 + 800 :=
  timestamp_seed_then_integrate.2.2 ⟨true, 0, 0⟩ 5 77 rfl

/-- C10 (counterexample): the claim says a regressing tick counter makes
the event time jump forward by `(cur - prev) mod 2^64` nanoseconds.  On
the code it does not: `ros::Duration::fromNSec` takes the unsigned
difference as an `int64_t`, so with anchor ticks 1800, anchor host time
`10^9`, and new ticks 1000, the stamp is `10^9 - 800`, not
`10^9 + (2^64 - 800)`. -/
theorem tick_regression_cex :
    (timeStep ⟨false, 1000000000, 1800⟩ 0 1000).1 = 1000000000 - 800 ∧
    (timeStep ⟨false, 1000000000, 1800⟩ 0 1000).1 ≠
      1000000000 + (2 ^ 64 - 800 : Int) := by
  decide

/-- C10 (amended): the delta added to the previous host timestamp is the
unsigned 64-bit difference `(cur - prev) mod 2^64` reinterpreted as a
signed 64-bit nanosecond count (`ros::Duration::fromNSec` takes
`int64_t`).  Hence when the counter regresses by `d < 2^63` ticks the
event time moves backward by `d` nanoseconds (it does not jump forward
by the wrapped difference), and no regression or restart is detected:
the anchor still advances to the new `(stamp, ticks)` pair. -/
theorem tick_regression_backward (ts : TimeState) (now : Int)
    (ticks : Nat) (h : ts.first_publish = false)
    (hlt : ticks < ts.vn_prev) (hb : ts.vn_prev < 2 ^ 64)
    (hd : ts.vn_prev - ticks < 2 ^ 63) :
    (timeStep ts now ticks).1 =
      ts.ros_prev - ((ts.vn_prev - ticks : Nat) : Int) ∧
    (timeStep ts now ticks).2 =
      ⟨false, ts.ros_prev - ((ts.vn_prev - ticks : Nat) : Int), ticks⟩ := by
  have hs : (timeStep ts now ticks).1 =
      ts.ros_prev - ((ts.vn_prev - ticks : Nat) : Int) := by
    simp [timeStep, h, int64_wrapSub_backward hlt hb hd, sub_eq_add_neg]
  exact ⟨hs, by simp [timeStep, h] at hs ⊢; rw [hs]⟩

/-- C10 (witness for the amended claim): anchor ticks 1800, new ticks
1000 — the stamp moves back by exactly 800 ns. -/
theorem tick_regression_backward_witness :
    (timeStep ⟨false, 1000000000, 1800⟩ 0 1000).1 =
      1000000000 - ((800 : Nat) : Int) :=
  (tick_regression_backward ⟨false, 1000000000, 1800⟩ 0 1000 rfl
    (by decide) (by decide) (by decide)).1

/-! ### Claim theorems: binary extraction order -/

lemma natToBytesLE_length (n v : Nat) : (natToBytesLE n v).length = n := by
  induction n generalizing v with
  | zero => rfl
  | succ n ih => simp [natToBytesLE, ih]

lemma bytesToNatLE_natToBytesLE (n v : Nat) (h : v < 256 ^ n) :
    bytesToNatLE (natToBytesLE n v) = v := by
  induction n generalizing v with
  | zero =>
    simp [natToBytesLE, bytesToNatLE]
    omega
  | succ n ih =>
    have hdiv : v / 256 < 256 ^ n := by
      rw [Nat.div_lt_iff_lt_mul (by norm_num : 0 < 256)]
      calc v < 256 ^ (n + 1) := h
        _ = 256 ^ n * 256 := by ring
    simp only [natToBytesLE, bytesToNatLE, List.foldr_cons]
    rw [show (natToBytesLE n (v / 256)).foldr
        (fun b acc => b % 256 + 256 * acc) 0 =
        bytesToNatLE (natToBytesLE n (v / 256)) from rfl, ih _ hdiv]
    omega

lemma extractBytes_encode {v : Nat} (n : Nat) (rest : List Nat)
    (h : v < 256 ^ n) :
    extractBytes n (natToBytesLE n v ++ rest) = some (v, rest) := by
  have hlen : (natToBytesLE n v).length = n := natToBytesLE_length n v
  unfold extractBytes
  rw [if_pos (by simp [hlen]), List.take_left' hlen, List.drop_left' hlen,
    bytesToNatLE_natToBytesLE n v h]

lemma extractUint64_encode {v : Nat} (rest : List Nat) (h : v < 2 ^ 64) :
    extractUint64 (natToBytesLE 8 v ++ rest) = some (v, rest) :=
  extractBytes_encode 8 rest (by norm_num at h ⊢; omega)

lemma extractUint32_encode {v : Nat} (rest : List Nat) (h : v < 2 ^ 32) :
    extractUint32 (natToBytesLE 4 v ++ rest) = some (v, rest) :=
  extractBytes_encode 4 rest (by norm_num at h ⊢; omega)

lemma extractFloat_encode {v : Nat} (rest : List Nat) (h : v < 2 ^ 32) :
    extractFloat (natToBytesLE 4 v ++ rest) = some (v, rest) :=
  extractBytes_encode 4 rest (by norm_num at h ⊢; omega)

lemma extractVec3f_encode {v : Vec3} (rest : List Nat)
    (hx : v.x < 2 ^ 32) (hy : v.y < 2 ^ 32) (hz : v.z < 2 ^ 32) :
    extractVec3f (encodeVec3 v ++ rest) = some (v, rest) := by
  simp only [encodeVec3, List.append_assoc, extractVec3f,
    extractFloat_encode _ hx, extractFloat_encode _ hy,
    extractFloat_encode _ hz]

lemma extractVec4f_encode {v : Vec4} (rest : List Nat)
    (hx : v.x < 2 ^ 32) (hy : v.y < 2 ^ 32) (hz : v.z < 2 ^ 32)
    (hw : v.w < 2 ^ 32) :
    extractVec4f (encodeVec4 v ++ rest) = some (v, rest) := by
  simp only [encodeVec4, List.append_assoc, extractVec4f,
    extractFloat_encode _ hx, extractFloat_encode _ hy,
    extractFloat_encode _ hz, extractFloat_encode _ hw]

/-- C3: the binary decode path consumes the buffer in exactly the
protocol-fixed order — timestamp (uint64), quaternion (4 floats),
magnetic field (vec3), temperature (float), pressure (float), sync
counter (uint32), linear acceleration (vec3), angular rate (vec3).  A
buffer laid out in that order decodes to exactly those field values with
exactly those bytes consumed (`rest` untouched), for every choice of
in-range field values. -/
theorem binary_extraction_order (f : BinaryFields) (rest : List Nat)
    (h : f.Wf) :
    extractBinaryFields (encodeBinaryRecord f ++ rest) = some (f, rest) := by
  obtain ⟨h1, h2, h3, h4, h5, h6, h7, h8, h9, h10, h11, h12, h13, h14,
    h15, h16, h17⟩ := h
  simp only [encodeBinaryRecord, List.append_assoc, extractBinaryFields,
    extractUint64_encode _ h1,
    extractVec4f_encode _ h2 h3 h4 h5,
    extractVec3f_encode _ h6 h7 h8,
    extractFloat_encode _ h9, extractFloat_encode _ h10,
    extractUint32_encode _ h11,
    extractVec3f_encode _ h12 h13 h14,
    extractVec3f_encode _ h15 h16 h17]

/-- C3 (witness): a concrete record with distinct field values
round-trips through the encoder and the decode path. -/
theorem binary_extraction_order_witness :
    extractBinaryFields
      (encodeBinaryRecord
        ⟨1000, ⟨1, 2, 3, 4⟩, ⟨5, 6, 7⟩, 8, 9, 10, ⟨11, 12, 13⟩,
         ⟨14, 15, 16⟩⟩ ++ []) =
      some (⟨1000, ⟨1, 2, 3, 4⟩, ⟨5, 6, 7⟩, 8, 9, 10, ⟨11, 12, 13⟩,
             ⟨14, 15, 16⟩⟩, []) :=
  binary_extraction_order
    ⟨1000, ⟨1, 2, 3, 4⟩, ⟨5, 6, 7⟩, 8, 9, 10, ⟨11, 12, 13⟩, ⟨14, 15, 16⟩⟩
    [] (by decide)

/-! ### Claim theorems: validation guards and the ASCII path -/

/-- C4: validation precedes extraction in the binary path of
`asciiOrBinaryAsyncMessageReceived`.  A binary packet whose declared
group mask differs from the configured mask, or whose checksum/CRC
check (`isValid`) fails, is rejected before any field is extracted:
no record is published and both the timestamp state and the sync state
are returned unchanged (the handler returns normally, so the stream
continues with the next record). -/
theorem validation_precedes_extraction :
    (∀ (ts : TimeState) (sync : SyncInfo) (now : Int) (p : Packet),
      p.groups ≠ expectedGroups ∨ p.valid = false →
      asciiOrBinaryAsyncMessageReceived true ts sync now p =
        (ts, sync, none)) ∧
    (∀ (ts : TimeState) (sync : SyncInfo) (now : Int) (p : Packet),
      p.valid = false →
      asciiOrBinaryAsyncMessageReceived false ts sync now p =
        (ts, sync, none)) := by
  constructor
  · intro ts sync now p h
    rcases h with h | h
    · simp [asciiOrBinaryAsyncMessageReceived, h]
    · by_cases hg : p.groups = expectedGroups
      · simp [asciiOrBinaryAsyncMessageReceived, hg, h]
      · simp [asciiOrBinaryAsyncMessageReceived, hg]
  · intro ts sync now p h
    by_cases ha : p.isAsciiType
    · by_cases hq : p.asciiAsyncType = vnqmrCode
      · simp [asciiOrBinaryAsyncMessageReceived, ha, hq, h]
      · simp [asciiOrBinaryAsyncMessageReceived, ha, hq]
    · simp [asciiOrBinaryAsyncMessageReceived, ha]

/-- C4 (witness): a packet declaring no groups at all is rejected with
the state unchanged. -/
theorem validation_precedes_extraction_witness :
    asciiOrBinaryAsyncMessageReceived true ⟨true, 0, 0⟩ ⟨0, 0, 0, 0, 0⟩ 0
      ⟨false, 0, ⟨0, 0, 0, 0, 0, 0⟩, true, [],
       ⟨⟨0, 0, 0, 0⟩, ⟨0, 0, 0⟩, ⟨0, 0, 0⟩, ⟨0, 0, 0⟩⟩⟩ =
      (⟨true, 0, 0⟩, ⟨0, 0, 0, 0, 0⟩, none) :=
  validation_precedes_extraction.1 ⟨true, 0, 0⟩ ⟨0, 0, 0, 0, 0⟩ 0 _
    (Or.inl (by decide))

/-- C7 (code bug, evaluated): `LoadParameters` does force pressure and
temperature off in ASCII mode (first conjunct), but the ASCII branch of
`PublishData` does not extract only the four sentence fields: after
`parseVNQMR` returns quaternion/magnetometer/acceleration/angular-rate,
the unconditional tail of `PublishData` still runs `extractFloat`
(temperature), `extractFloat` (pressure), `extractUint32` (sync
counter), and two `extractVec3f` against the packet buffer, overwriting
the parsed acceleration and angular rate.  Here the sentence parses
acceleration `(8,9,10)` and angular rate `(11,12,13)`, yet the published
record carries the re-extracted zero bytes instead. -/
theorem ascii_tail_extraction_bug :
    fixAsciiOutputs false true true = (false, false) ∧
    publishDataAscii ⟨false, 0, 0⟩ ⟨0, 0, 0, 0, 0⟩
        ⟨⟨1, 2, 3, 4⟩, ⟨5, 6, 7⟩, ⟨8, 9, 10⟩, ⟨11, 12, 13⟩⟩
        (List.replicate 36 0) =
      some (⟨0, ⟨1, 2, 3, 4⟩, ⟨5, 6, 7⟩, 0, 0, 0, ⟨0, 0, 0⟩, ⟨0, 0, 0⟩⟩,
            ⟨false, 0, 0⟩, ⟨0, 0, 0, 0, 0⟩) ∧
    (⟨8, 9, 10⟩ : Vec3) ≠ ⟨0, 0, 0⟩ := by
  decide

end ImuVn100
